import Mathlib

/-!
Verification of the configuration-derivation and template-rendering core of
the `binonly_snapshot` tool (`src/main.rs`).

The development shallowly embeds the Rust source:
* `parse_size` embeds the size-parsing function (`src/main.rs` lines 241-266);
* the argument-classification loop of `main` (lines 93-115) is embedded as
  `classifyLoop`, with the per-token branch structure as `classifyToken`;
* the Dockerfile template substitution (lines 124-133) is embedded as
  `renderBase` over a faithful `replaceAll` (the semantics of Rust
  `str::replace`: replace every leftmost non-overlapping occurrence);
* the declaration-line appends (lines 136-156) as `mainDockerfile`.

Machine integers are `Nat` with explicit bounds at 2^64 where the Rust code
uses `u64` with `checked_mul`.
-/

set_option maxRecDepth 100000
set_option maxHeartbeats 1000000

namespace BinonlySnapshot

/-! ### Size parsing (`parse_size`, src/main.rs lines 235-266) -/

/-- `enum Size` from the source. -/
inductive Size
  | Kilobyte
  | Megabyte
  | Gigabyte
deriving DecidableEq

/-- Outcome of `parse_size`.  The Rust function returns
`Result<u64, ParseIntError>` but additionally panics (via `expect`)
when the suffix multiplication overflows; the three outcomes are kept
distinct here.  In no failure case is a size value produced. -/
inductive SizeResult
  | ok (n : Nat)
  | parseError
  | overflowPanic
deriving DecidableEq

/-- 2^64, the number of values of `u64`. -/
def U64LIMIT : Nat := 18446744073709551616

/-- Numeric value of a digit string (most significant first), as accumulated
by `u64::from_str`. -/
def digitsVal (l : List Char) : Nat :=
  l.foldl (fun a c => a * 10 + (c.toNat - 48)) 0

/-- Digit-run part of `u64::from_str`: one or more ASCII digits whose
value fits in the `u64` range. -/
def parseU64digits (l2 : List Char) : Option Nat :=
  if l2.isEmpty then none
  else if l2.all Char.isDigit then
    if digitsVal l2 < U64LIMIT then some (digitsVal l2) else none
  else none

/-- Embedding of `input.parse::<u64>()` (`u64::from_str`): an optional
leading `+`, then one or more ASCII digits, value within the `u64` range. -/
def parseU64core (l : List Char) : Option Nat :=
  parseU64digits (if l.head? = some '+' then l.tail else l)

/-- The suffix test of `parse_size` (src/main.rs lines 242-250): a chain
of single-character `ends_with` checks. -/
def sizeFormat (l : List Char) : Option Size :=
  if l.getLast? = some 'k' ∨ l.getLast? = some 'K' then some Size.Kilobyte
  else if l.getLast? = some 'm' ∨ l.getLast? = some 'M' then some Size.Megabyte
  else if l.getLast? = some 'g' ∨ l.getLast? = some 'G' then some Size.Gigabyte
  else none

/-- The multiplication step of `parse_size` (src/main.rs lines 260-265):
`checked_mul(...).expect("Too large size")` per unit, panicking on
overflow. -/
def applyFormat (format : Option Size) (num : Nat) : SizeResult :=
  match format with
  | some Size.Kilobyte =>
    if num * 1024 < U64LIMIT then SizeResult.ok (num * 1024)
    else SizeResult.overflowPanic
  | some Size.Megabyte =>
    if num * (1024 * 1024) < U64LIMIT then SizeResult.ok (num * (1024 * 1024))
    else SizeResult.overflowPanic
  | some Size.Gigabyte =>
    if num * (1024 * 1024 * 1024) < U64LIMIT then SizeResult.ok (num * (1024 * 1024 * 1024))
    else SizeResult.overflowPanic
  | none => SizeResult.ok num

/-- Embedding of `parse_size` (src/main.rs lines 241-266).  A single-char
suffix test (`ends_with`) selects the unit; if a unit was found the last
char is removed (`chars().next_back()`); the rest is parsed as `u64`;
the result is multiplied by the unit with overflow checking. -/
def parse_size (input : String) : SizeResult :=
  match parseU64core
      (if (sizeFormat input.data).isSome then input.data.dropLast else input.data) with
  | none => SizeResult.parseError
  | some num => applyFormat (sizeFormat input.data) num

example : parse_size "123" = SizeResult.ok 123 := by decide
example : parse_size "2k" = SizeResult.ok 2048 := by decide
example : parse_size "2K" = SizeResult.ok 2048 := by decide
example : parse_size "3m" = SizeResult.ok (3 * 1024 * 1024) := by decide
example : parse_size "1G" = SizeResult.ok (1024 * 1024 * 1024) := by decide
example : parse_size "" = SizeResult.parseError := by decide
example : parse_size "x" = SizeResult.parseError := by decide
example : parse_size "k" = SizeResult.parseError := by decide
example : parse_size "18446744073709551615k" = SizeResult.overflowPanic := by decide
example : parse_size "18446744073709551616" = SizeResult.parseError := by decide

/-! ### Command line arguments (struct `CommandLineArgs`, src/main.rs lines 50-78) -/

/-- `enum ImgType` from the source. -/
inductive ImgType
  | Disk
  | Initramfs
deriving DecidableEq

/-- `format!("{imgtype:?}").to_lowercase()` (src/main.rs line 147). -/
def imgTypeName : ImgType → String
  | ImgType.Disk => "disk"
  | ImgType.Initramfs => "initramfs"

/-- The clap-parsed command line (struct `CommandLineArgs`).
`input_file_size` is the already-parsed value (clap applies `parse_size`
as the value parser); paths are strings (the code only ever uses
`to_str().unwrap()` on them). -/
structure CommandLineArgs where
  function : Option String
  image_type : Option ImgType
  libfuzzer : Bool
  packages : Option (List String)
  input_file_size : Option Nat
  binary : String
  arguments : Option String
deriving DecidableEq

/-! ### Filesystem model

Classification performs exactly two filesystem-dependent operations:
`std::path::absolute` (pure given the current directory, for paths without
`.`/`..` components, which is all this development evaluates) and
`Path::exists`.  The environment packages the current directory and the
set of existing paths as a boolean predicate. -/

/-- The filesystem facts classification depends on. -/
structure Env where
  cwd : String
  fileExists : String → Bool

/-- `str::starts_with` on strings, via char lists. -/
def strStartsWith (s pre : String) : Bool :=
  pre.data.isPrefixOf s.data

/-- Embedding of `std::path::absolute` for paths free of `.`/`..`
components: errors (returns `none`) exactly on the empty path, returns an
absolute path unchanged, and resolves a relative path against the current
working directory. -/
def absolutize (cwd tok : String) : Option String :=
  if tok = "" then none
  else if strStartsWith tok "/" then some tok
  else some (cwd ++ "/" ++ tok)

/-- Split a character list at every occurrence of a separator character
(the semantics of Rust `str::split(char)`): `n` separators yield `n + 1`
pieces, empty pieces included. -/
def splitOnChar (sep : Char) : List Char → List (List Char)
  | [] => [[]]
  | c :: rest =>
    match splitOnChar sep rest with
    | [] => [[]]
    | h :: t => if c = sep then [] :: h :: t else (c :: h) :: t

/-- `str::split` on a single separator character, on strings. -/
def splitChar (sep : Char) (s : String) : List String :=
  (splitOnChar sep s.data).map (fun l => (⟨l⟩ : String))

example : splitChar ' ' "a @@ b" = ["a", "@@", "b"] := by decide
example : splitChar ' ' "" = [""] := by decide
example : splitChar ' ' "a  b" = ["a", "", "b"] := by decide

/-- Embedding of `Path::file_name` for paths free of `.` components: the
last nonempty `/`-separated component, `none` when there is none or it is
`..`. -/
def fileName (p : String) : Option String :=
  match ((splitChar '/' p).filter (fun s => s ≠ "")).getLast? with
  | none => none
  | some c => if c = ".." then none else some c

example : fileName "/tmp/cfg.json" = some "cfg.json" := by decide
example : fileName "/bin/tool" = some "tool" := by decide
example : fileName "/" = none := by decide

/-- Escaping applied by `format!("{:?}")` to the characters of a path:
backslashes and double quotes are escaped, everything else (in the ASCII
paths this development evaluates) is kept. -/
def debugEscape (s : String) : String :=
  ⟨s.data.foldr (fun c acc => if c = '"' ∨ c = '\\' then '\\' :: c :: acc else c :: acc) []⟩

/-- The copy instruction recorded for a staged file:
`format!("COPY {test_file:?} /opt")` (src/main.rs line 98). -/
def copyLine (p : String) : String :=
  "COPY \"" ++ debugEscape p ++ "\" /opt"

/-- The fixed placeholder path `TRUNCATE_FILE_NAME` (src/main.rs line 81). -/
def TRUNCATE_FILE_NAME : String := "/opt/truncated_input_file"

/-! ### Argument classification (src/main.rs lines 88-115) -/

/-- The spec's `ArgumentToken` variant: classification of a single
whitespace-delimited argument token.  A staged reference carries the
resolved absolute path and its extracted base name. -/
inductive ArgToken
  | Literal (s : String)
  | PlaceholderInputFile
  | StagedFileReference (path name : String)
deriving DecidableEq

/-- Per-token classification, with the branch structure of the loop body
(src/main.rs lines 96-113): resolve with `std::path::absolute`; when the
resolved path exists and the original token does not start with `/dev`,
stage the file (`none` models the `file_name().unwrap()` panic when the
base name is missing); otherwise fall through to the `@@` check, and
finally to the literal case. -/
def classifyToken (env : Env) (argument : String) : Option ArgToken :=
  match absolutize env.cwd argument with
  | some test_file =>
    if env.fileExists test_file && !strStartsWith argument "/dev" then
      (fileName test_file).map (fun n => ArgToken.StagedFileReference test_file n)
    else if argument = "@@" then some ArgToken.PlaceholderInputFile
    else some (ArgToken.Literal argument)
  | none =>
    if argument = "@@" then some ArgToken.PlaceholderInputFile
    else some (ArgToken.Literal argument)

/-- The rewritten argument the loop pushes for a token (src/main.rs
lines 100, 107, 113). -/
def rewriteOf : ArgToken → String
  | ArgToken.Literal s => s
  | ArgToken.PlaceholderInputFile => TRUNCATE_FILE_NAME
  | ArgToken.StagedFileReference _ n => "/opt/" ++ n

/-- The copy instruction the loop pushes for a token, if any
(src/main.rs line 98). -/
def copyOf : ArgToken → Option String
  | ArgToken.StagedFileReference p _ => some (copyLine p)
  | _ => none

/-- Whether a token sets the `has_file` flag (src/main.rs line 108). -/
def isPlaceholderB : ArgToken → Bool
  | ArgToken.PlaceholderInputFile => true
  | _ => false

/-- The loop state: `arguments`, `files` and `has_file`
(src/main.rs lines 89-92). -/
structure ClassifyResult where
  arguments : List String
  files : List String
  hasFile : Bool
deriving DecidableEq

/-- One iteration of the classification loop (src/main.rs lines 94-114),
pushing onto the accumulated state.  `none` models the
`file_name().unwrap()` panic. -/
def classifyStep (env : Env) (acc : ClassifyResult) (argument : String) :
    Option ClassifyResult :=
  match absolutize env.cwd argument with
  | some test_file =>
    if env.fileExists test_file && !strStartsWith argument "/dev" then
      match fileName test_file with
      | some n =>
        some { acc with
               files := acc.files ++ [copyLine test_file],
               arguments := acc.arguments ++ ["/opt/" ++ n] }
      | none => none
    else if argument = "@@" then
      some { acc with
             arguments := acc.arguments ++ [TRUNCATE_FILE_NAME],
             hasFile := true }
    else some { acc with arguments := acc.arguments ++ [argument] }
  | none =>
    if argument = "@@" then
      some { acc with
             arguments := acc.arguments ++ [TRUNCATE_FILE_NAME],
             hasFile := true }
    else some { acc with arguments := acc.arguments ++ [argument] }

/-- The whole classification loop over the split token list. -/
def classifyLoop (env : Env) (toks : List String) : Option ClassifyResult :=
  toks.foldlM (classifyStep env) ⟨[], [], false⟩

/-- The token list the loop runs over: the raw argument string split on
the space character when present (`curr_arguments.split(' ')`,
src/main.rs lines 93-94), the empty list when absent. -/
def argTokens (args : CommandLineArgs) : List String :=
  (args.arguments.map (fun s => splitChar ' ' s)).getD []

/-- The classified token sequence of the spec's data model: per-token
classification, in order. -/
def tokensOf (env : Env) : List String → Option (List ArgToken)
  | [] => some []
  | t :: ts =>
    match classifyToken env t, tokensOf env ts with
    | some tk, some tks => some (tk :: tks)
    | _, _ => none

/-! ### Template substitution (`str::replace`, src/main.rs lines 124-133)

Rust `str::replace(from, to)` replaces every leftmost non-overlapping
occurrence of `from` by `to`.  `goRep` implements exactly that on char
lists; the fuel argument (initially the haystack length, an upper bound on
the number of steps since every step consumes at least one character) only
makes the recursion structural. -/

/-- Worker for `replaceAll`; `fuel` bounds the number of characters still
to be consumed.  When the pattern is nonempty and matches at the head, the
replacement is emitted and the match is skipped; otherwise one character is
kept. -/
def goRep (pat rep : List Char) : Nat → List Char → List Char
  | _, [] => []
  | 0, s => s
  | Nat.succ fuel, c :: rest =>
    if pat.isPrefixOf (c :: rest) ∧ pat ≠ [] then
      rep ++ goRep pat rep fuel (List.drop (pat.length - 1) rest)
    else c :: goRep pat rep fuel rest

/-- Replace every leftmost non-overlapping occurrence of `pat` in `s` by
`rep` (the semantics of Rust `str::replace` for a nonempty pattern; for
the empty pattern this returns `s` unchanged, a case the source never
exercises: all its patterns are the fixed placeholder markers). -/
def replaceAll (pat rep s : List Char) : List Char :=
  goRep pat rep s.length s

/-- `String.replace` as used by the source, via `replaceAll`. -/
def replaceStr (s pat rep : String) : String :=
  ⟨replaceAll pat.data rep.data s.data⟩

example : replaceStr "a $X$ b" "$X$" "hi" = "a hi b" := by decide
example : replaceStr "$X$$X$" "$X$" "y" = "yy" := by decide
example : replaceStr "abc" "$X$" "y" = "abc" := by decide

/-- The base template `DOCKERFILE` (src/main.rs lines 10-30). -/
def DOCKERFILE : String :=
  "\n###################################################\n#### Ubuntu root FS\nFROM ubuntu:jammy as base\nRUN apt-get update -q \\\n  && apt-get install -q -y build-essential clang gdb python3 $PACKAGES$ \\\n  && apt-get clean -y \\\n  && rm -rf /var/lib/apt/lists/*\n\n# Copy binary into the root\nCOPY $BINARY$ /opt/\n$TRUNCATE$\n$FILES$\n\n###################################################\nFROM ctfhacker/snapchange_snapshot\n\nCOPY --from=base / \"$SNAPSHOT_INPUT\"\n\nENV SNAPSHOT_ENTRYPOINT=/opt/$BINARYNAME$\n"

/-- The five substitutions of src/main.rs lines 124-133, in source order:
`$BINARY$`, `$BINARYNAME$`, `$PACKAGES$`, `$TRUNCATE$`, `$FILES$`. -/
def renderBase (binary binaryName packagesJoined truncate filesJoined : String) : String :=
  replaceStr
    (replaceStr
      (replaceStr
        (replaceStr
          (replaceStr DOCKERFILE "$BINARY$" binary)
          "$BINARYNAME$" binaryName)
        "$PACKAGES$" packagesJoined)
      "$TRUNCATE$" truncate)
    "$FILES$" filesJoined

/-! ### Declaration lines and the full manifest (src/main.rs lines 117-156) -/

/-- The truncation directive (src/main.rs lines 117-122): when `has_file`
is set, `RUN truncate -s {size} /opt/truncated_input_file` with the user
size or the default `32 * 1024`; the empty string otherwise. -/
def truncateOf (hasFile : Bool) (input_file_size : Option Nat) : String :=
  if hasFile then
    "RUN truncate -s " ++ Nat.repr (input_file_size.getD (32 * 1024)) ++ " " ++ TRUNCATE_FILE_NAME
  else ""

/-- The break function (src/main.rs lines 136-142): the explicit value if
given, else `LLVMFuzzerTestOneInput` when `--libfuzzer` is set, else
`main`. -/
def functionOf (args : CommandLineArgs) : String :=
  args.function.getD (if args.libfuzzer then "LLVMFuzzerTestOneInput" else "main")

/-- The image type (src/main.rs lines 146-147): the explicit value if
given, else `Initramfs`; rendered lower-case. -/
def imgtypeOf (args : CommandLineArgs) : String :=
  imgTypeName (args.image_type.getD ImgType.Initramfs)

/-- The optional arguments declaration (src/main.rs lines 151-156):
nothing when the rewritten list is empty, otherwise one line with the
space-joined list as a quoted value. -/
def argumentsLineOf (arguments : List String) : String :=
  if arguments.isEmpty then ""
  else "ENV SNAPSHOT_ENTRYPOINT_ARGUMENTS=\"" ++ String.intercalate " " arguments ++ "\"\n"

/-- The whole manifest (`dockerfile` of `main`, src/main.rs lines 80-156):
base-name extraction, classification of the split argument string,
template substitution, then the three appended declarations.  `none`
models the `unwrap` panics on base-name extraction. -/
def mainDockerfile (env : Env) (args : CommandLineArgs) : Option String := do
  let binary_name ← fileName args.binary
  let r ← classifyLoop env (argTokens args)
  let truncate := truncateOf r.hasFile args.input_file_size
  let base := renderBase args.binary binary_name
    (String.intercalate " " (args.packages.getD []))
    truncate
    (String.intercalate "\n" r.files)
  let d := base
    ++ "ENV SNAPSHOT_FUNCTION=" ++ functionOf args ++ "\n"
    ++ "ENV SNAPSHOT_IMGTYPE=" ++ imgtypeOf args ++ "\n"
    ++ argumentsLineOf r.arguments
  return d

/-! ### Substring occurrence -/

/-- Whether `pat` occurs as a contiguous substring of `s` (for nonempty
`pat`; the empty pattern occurs only in the empty list by this count,
a case never used). -/
def occursB (pat : List Char) : List Char → Bool
  | [] => pat.isEmpty
  | c :: rest => pat.isPrefixOf (c :: rest) || occursB pat rest

/-- `occursB` on strings. -/
def occursStr (pat s : String) : Bool := occursB pat.data s.data

/-! ### The placeholder markers and the template fragments around them -/

/-- Marker `$BINARY$`. -/
def mBINARY : List Char := "$BINARY$".data

/-- Marker `$BINARYNAME$`. -/
def mBINARYNAME : List Char := "$BINARYNAME$".data

/-- Marker `$PACKAGES$`. -/
def mPACKAGES : List Char := "$PACKAGES$".data

/-- Marker `$TRUNCATE$`. -/
def mTRUNCATE : List Char := "$TRUNCATE$".data

/-- Marker `$FILES$`. -/
def mFILES : List Char := "$FILES$".data

/-- Template text before `$PACKAGES$`. -/
def frag0 : String :=
  "\n###################################################\n#### Ubuntu root FS\nFROM ubuntu:jammy as base\nRUN apt-get update -q \\\n  && apt-get install -q -y build-essential clang gdb python3 "

/-- Template text between `$PACKAGES$` and `$BINARY$`. -/
def frag1 : String :=
  " \\\n  && apt-get clean -y \\\n  && rm -rf /var/lib/apt/lists/*\n\n# Copy binary into the root\nCOPY "

/-- Template text between `$BINARY$` and `$TRUNCATE$`. -/
def frag2 : String := " /opt/\n"

/-- Template text between `$TRUNCATE$` and `$FILES$`. -/
def frag3 : String := "\n"

/-- Template text between `$FILES$` and `$BINARYNAME$`. -/
def frag4 : String :=
  "\n\n###################################################\nFROM ctfhacker/snapchange_snapshot\n\nCOPY --from=base / \"$SNAPSHOT_INPUT\"\n\nENV SNAPSHOT_ENTRYPOINT=/opt/"

/-- Template text after `$BINARYNAME$`. -/
def frag5 : String := "\n"

example :
    DOCKERFILE.data =
      frag0.data ++ mPACKAGES ++ frag1.data ++ mBINARY ++ frag2.data ++ mTRUNCATE
        ++ frag3.data ++ mFILES ++ frag4.data ++ mBINARYNAME ++ frag5.data := by decide

/-! ### Lemmas: prefix mismatch, occurrence, and where matches can start -/

/-- A character mismatch between a haystack prefix and the pattern inside
their common zipped range. -/
def zipMism (a pat : List Char) : Bool :=
  (a.zip pat).any (fun q => !(q.1 == q.2))

theorem not_isPrefixOf_of_zipMism (pat a z : List Char)
    (h : zipMism a pat = true) : pat.isPrefixOf (a ++ z) = false := by
  induction a generalizing pat with
  | nil => simp [zipMism] at h
  | cons x xs ih =>
    cases pat with
    | nil => simp [zipMism] at h
    | cons p ps =>
      have hsplit : (!(x == p)) = true ∨ zipMism xs ps = true := by
        simpa [zipMism, List.any_cons, Bool.or_eq_true] using h
      have hgoal : (p :: ps).isPrefixOf ((x :: xs) ++ z)
          = (p == x && ps.isPrefixOf (xs ++ z)) := rfl
      rw [hgoal]
      rcases hsplit with h1 | h2
      · have hne : ¬ x = p := by simpa using h1
        have : (p == x) = false := by
          simp only [beq_eq_false_iff_ne]
          exact fun he => hne he.symm
        simp [this]
      · simp [ih ps h2]

/-- No occurrence of `pat` can start inside `x` when `x` is followed by
`z`. -/
def NoStarts (pat x z : List Char) : Prop :=
  ∀ i < x.length, pat.isPrefixOf ((x ++ z).drop i) = false

theorem NoStarts.append {pat a b z : List Char}
    (ha : NoStarts pat a (b ++ z)) (hb : NoStarts pat b z) :
    NoStarts pat (a ++ b) z := by
  intro i hi
  rw [List.append_assoc]
  rcases Nat.lt_or_ge i a.length with hia | hia
  · exact ha i hia
  · have hrw : i = a.length + (i - a.length) := by omega
    rw [hrw, List.drop_append]
    refine hb (i - a.length) ?_
    simp only [List.length_append] at hi
    omega

/-- An occurrence cannot start at a character different from the
pattern's first character. -/
theorem noStarts_of_head_nomem {pat x z : List Char} {c0 : Char}
    (hp : pat.head? = some c0) (hv : ∀ c ∈ x, c ≠ c0) : NoStarts pat x z := by
  intro i hi
  have hlt : i < (x ++ z).length := by
    simp only [List.length_append]; omega
  rw [List.drop_eq_getElem_cons hlt, List.getElem_append_left hi]
  cases pat with
  | nil => simp at hp
  | cons p ps =>
    have hc : p = c0 := by simpa using hp
    subst hc
    have hne : x[i] ≠ p := hv x[i] (List.getElem_mem hi)
    have hb : (p == x[i]) = false := by
      simp only [beq_eq_false_iff_ne]
      exact fun he => hne he.symm
    show (p == x[i] && _) = false
    simp [hb]

/-- Decidable check that no occurrence of `pat` starts anywhere inside
the concrete fragment `x`, whatever follows it. -/
def fragSafeB (pat x : List Char) : Bool :=
  (List.range x.length).all (fun i => zipMism (x.drop i) pat)

theorem noStarts_of_fragSafe {pat x : List Char}
    (h : fragSafeB pat x = true) (z : List Char) : NoStarts pat x z := by
  intro i hi
  have hm : zipMism (x.drop i) pat = true := by
    have := List.all_eq_true.mp h i (List.mem_range.mpr hi)
    simpa using this
  have hres := not_isPrefixOf_of_zipMism pat (x.drop i) z hm
  rwa [List.drop_append_of_le_length (Nat.le_of_lt hi)]

theorem occursB_eq_false_of_noStarts {pat s : List Char}
    (hp : pat ≠ []) (h : NoStarts pat s []) : occursB pat s = false := by
  induction s with
  | nil =>
    cases pat with
    | nil => exact absurd rfl hp
    | cons p ps => rfl
  | cons c rest ih =>
    have h0 : pat.isPrefixOf (c :: rest) = false := by
      have := h 0 (by simp)
      simpa using this
    have hrec : NoStarts pat rest [] := by
      intro i hi
      have := h (i + 1) (by simp; omega)
      simpa [List.cons_append] using this
    show (pat.isPrefixOf (c :: rest) || occursB pat rest) = false
    simp [h0, ih hrec]

/-! ### Lemmas: behaviour of the replacement worker -/

theorem goRep_of_not_occurs {pat rep : List Char} :
    ∀ (s : List Char) (fuel : Nat), occursB pat s = false → s.length ≤ fuel →
      goRep pat rep fuel s = s := by
  intro s
  induction s with
  | nil => intro fuel _ _; cases fuel <;> rfl
  | cons c rest ih =>
    intro fuel hocc hlen
    cases fuel with
    | zero => simp at hlen
    | succ f =>
      have hpre : pat.isPrefixOf (c :: rest) = false := by
        have : (pat.isPrefixOf (c :: rest) || occursB pat rest) = false := hocc
        simp only [Bool.or_eq_false_iff] at this
        exact this.1
      have hrest : occursB pat rest = false := by
        have : (pat.isPrefixOf (c :: rest) || occursB pat rest) = false := hocc
        simp only [Bool.or_eq_false_iff] at this
        exact this.2
      show goRep pat rep (f + 1) (c :: rest) = c :: rest
      rw [goRep]
      rw [if_neg (by simp [hpre])]
      rw [ih f hrest (by simp at hlen; omega)]

theorem goRep_single {pat rep : List Char} (hp : pat ≠ []) :
    ∀ (x y : List Char) (fuel : Nat), NoStarts pat x (pat ++ y) →
      occursB pat y = false → (x ++ pat ++ y).length ≤ fuel →
      goRep pat rep fuel (x ++ pat ++ y) = x ++ rep ++ y := by
  intro x
  induction x with
  | nil =>
    intro y fuel _ hy hlen
    cases pat with
    | nil => exact absurd rfl hp
    | cons p ps =>
      cases fuel with
      | zero => simp [List.length_append] at hlen
      | succ f =>
        have hpre : (p :: ps).isPrefixOf (p :: (ps ++ y)) = true := by
          rw [show p :: (ps ++ y) = (p :: ps) ++ y from rfl]
          simp [List.isPrefixOf_iff_prefix]
        show goRep (p :: ps) rep (f + 1) (p :: (ps ++ y)) = [] ++ rep ++ y
        rw [goRep]
        rw [if_pos (And.intro hpre hp)]
        have hdrop : List.drop ((p :: ps).length - 1) (ps ++ y) = y := by
          simp only [List.length_cons, Nat.add_sub_cancel]
          exact List.drop_left ps y
        rw [hdrop]
        rw [goRep_of_not_occurs y f hy
          (by simp [List.length_append] at hlen; omega)]
        rfl
  | cons a xs ih =>
    intro y fuel hx hy hlen
    cases fuel with
    | zero =>
      exfalso
      simp [List.length_append] at hlen
    | succ f =>
      have hpre : pat.isPrefixOf (a :: (xs ++ pat ++ y)) = false := by
        have := hx 0 (by simp)
        simpa using this
      have hxs : NoStarts pat xs (pat ++ y) := by
        intro i hi
        have := hx (i + 1) (by simp; omega)
        simpa [List.cons_append] using this
      have hcond : ¬(pat.isPrefixOf (a :: (xs ++ pat ++ y)) = true ∧ pat ≠ []) := by
        intro hc
        rw [hpre] at hc
        exact Bool.false_ne_true hc.1
      show goRep pat rep (f + 1) (a :: (xs ++ pat ++ y)) = (a :: xs) ++ rep ++ y
      rw [goRep]
      rw [if_neg hcond]
      rw [ih y f hxs hy (by simp [List.length_append] at hlen ⊢; omega)]
      rfl

/-- Single-occurrence replacement: when no match can start inside `x` and
none occurs in `y`, replacing in `x ++ pat ++ y` substitutes exactly the
shown occurrence. -/
theorem replaceAll_single {pat rep x y : List Char} (hp : pat ≠ [])
    (hx : NoStarts pat x (pat ++ y)) (hy : occursB pat y = false) :
    replaceAll pat rep (x ++ pat ++ y) = x ++ rep ++ y :=
  goRep_single hp x y (x ++ pat ++ y).length hx hy (Nat.le_refl _)

/-- A replacement in a string with no occurrence leaves it unchanged. -/
theorem replaceAll_of_not_occurs {pat rep s : List Char}
    (h : occursB pat s = false) : replaceAll pat rep s = s :=
  goRep_of_not_occurs s s.length h (Nat.le_refl _)

/-! ### Lemmas: the classification loop versus per-token classification -/

theorem classifyStep_eq (env : Env) (acc : ClassifyResult) (tok : String) :
    classifyStep env acc tok = (classifyToken env tok).map (fun tk =>
      { arguments := acc.arguments ++ [rewriteOf tk],
        files := acc.files ++ (copyOf tk).toList,
        hasFile := acc.hasFile || isPlaceholderB tk }) := by
  unfold classifyStep classifyToken
  cases habs : absolutize env.cwd tok with
  | some test_file =>
    dsimp only
    by_cases hcond : (env.fileExists test_file && !strStartsWith tok "/dev") = true
    · rw [if_pos hcond, if_pos hcond]
      cases hfn : fileName test_file with
      | none => rfl
      | some n => simp [rewriteOf, copyOf, isPlaceholderB]
    · rw [if_neg hcond, if_neg hcond]
      by_cases hat : tok = "@@"
      · subst hat
        simp [rewriteOf, copyOf, isPlaceholderB]
      · rw [if_neg hat, if_neg hat]
        simp [rewriteOf, copyOf, isPlaceholderB]
  | none =>
    dsimp only
    by_cases hat : tok = "@@"
    · subst hat
      simp [rewriteOf, copyOf, isPlaceholderB]
    · rw [if_neg hat, if_neg hat]
      simp [rewriteOf, copyOf, isPlaceholderB]

theorem classifyFold_eq (env : Env) :
    ∀ (toks : List String) (tks : List ArgToken) (acc : ClassifyResult),
      tokensOf env toks = some tks →
      List.foldlM (classifyStep env) acc toks =
        some { arguments := acc.arguments ++ tks.map rewriteOf,
               files := acc.files ++ tks.filterMap copyOf,
               hasFile := acc.hasFile || tks.any isPlaceholderB } := by
  intro toks
  induction toks with
  | nil =>
    intro tks acc htk
    have h0 : tks = [] := by
      have : some ([] : List ArgToken) = some tks := htk
      simpa using this.symm
    subst h0
    simp [List.foldlM]
  | cons t ts ih =>
    intro tks acc htk
    obtain ⟨tk, htok, tks2, hts, htks⟩ :
        ∃ tk, classifyToken env t = some tk ∧
          ∃ tks2, tokensOf env ts = some tks2 ∧ tks = tk :: tks2 := by
      unfold tokensOf at htk
      cases h1 : classifyToken env t with
      | none => rw [h1] at htk; simp at htk
      | some tk =>
        rw [h1] at htk
        cases h2 : tokensOf env ts with
        | none => rw [h2] at htk; simp at htk
        | some tks2 =>
          rw [h2] at htk
          exact ⟨tk, rfl, tks2, rfl, by simpa using htk.symm⟩
    subst htks
    rw [List.foldlM_cons, classifyStep_eq, htok]
    simp only [Option.map_some']
    show List.foldlM (classifyStep env) _ ts = _
    rw [ih tks2 _ hts]
    congr 1
    simp only [List.map_cons, List.filterMap_cons, List.any_cons,
      ClassifyResult.mk.injEq]
    refine ⟨by simp, ?_, by simp [Bool.or_assoc]⟩
    cases hco : copyOf tk <;> simp [hco]

theorem classifyLoop_eq {env : Env} {toks : List String} {tks : List ArgToken}
    (htk : tokensOf env toks = some tks) :
    classifyLoop env toks =
      some { arguments := tks.map rewriteOf,
             files := tks.filterMap copyOf,
             hasFile := tks.any isPlaceholderB } := by
  have := classifyFold_eq env toks tks ⟨[], [], false⟩ htk
  simpa [classifyLoop] using this

/-! ### Lemmas: size parsing -/

theorem parseU64digits_of_digits {ds : List Char} (h1 : ds ≠ [])
    (h2 : ds.all Char.isDigit = true) (h3 : digitsVal ds < U64LIMIT) :
    parseU64digits ds = some (digitsVal ds) := by
  unfold parseU64digits
  rw [if_neg (by simp [List.isEmpty_iff, h1])]
  rw [if_pos h2, if_pos h3]

theorem parseU64core_of_digits {ds : List Char} (h1 : ds ≠ [])
    (h2 : ds.all Char.isDigit = true) (h3 : digitsVal ds < U64LIMIT) :
    parseU64core ds = some (digitsVal ds) := by
  have hplus : ¬ (ds.head? = some '+') := by
    cases ds with
    | nil => exact absurd rfl h1
    | cons d rest =>
      simp only [List.head?_cons, Option.some.injEq]
      intro he
      have hd : d.isDigit = true := by
        have := List.all_eq_true.mp h2 d (by simp)
        simpa using this
      rw [he] at hd
      exact absurd hd (by decide)
  unfold parseU64core
  rw [if_neg hplus]
  exact parseU64digits_of_digits h1 h2 h3

theorem parseU64digits_of_nondigit {l2 : List Char} {c : Char} (hc : c ∈ l2)
    (hcd : c.isDigit = false) : parseU64digits l2 = none := by
  unfold parseU64digits
  rw [if_neg (by simp [List.isEmpty_iff]; exact List.ne_nil_of_mem hc)]
  rw [if_neg (by intro hall; have := List.all_eq_true.mp hall c hc; simp [hcd] at this)]

theorem parseU64core_of_nondigit {l : List Char} {c : Char} (hc : c ∈ l)
    (hcd : c.isDigit = false) (hcp : c ≠ '+') : parseU64core l = none := by
  unfold parseU64core
  have hc2 : c ∈ (if l.head? = some '+' then l.tail else l) := by
    split
    · next hh =>
      cases l with
      | nil => simp at hc
      | cons d rest =>
        have hd : d = '+' := by simpa using hh
        rcases List.mem_cons.mp hc with h | h
        · exact absurd (h.trans hd) hcp
        · simpa using h
    · exact hc
  exact parseU64digits_of_nondigit hc2 hcd

theorem sizeFormat_of_digits {ds : List Char} (h2 : ds.all Char.isDigit = true) :
    sizeFormat ds = none := by
  have key : ∀ c : Char, c.isDigit = false → ¬ (ds.getLast? = some c) := by
    intro c hc hsome
    have hmem : c ∈ ds := List.mem_of_getLast?_eq_some hsome
    have := List.all_eq_true.mp h2 c hmem
    simp [hc] at this
  have c1 : ¬ (ds.getLast? = some 'k' ∨ ds.getLast? = some 'K') := by
    rintro (h | h)
    · exact key 'k' (by decide) h
    · exact key 'K' (by decide) h
  have c2 : ¬ (ds.getLast? = some 'm' ∨ ds.getLast? = some 'M') := by
    rintro (h | h)
    · exact key 'm' (by decide) h
    · exact key 'M' (by decide) h
  have c3 : ¬ (ds.getLast? = some 'g' ∨ ds.getLast? = some 'G') := by
    rintro (h | h)
    · exact key 'g' (by decide) h
    · exact key 'G' (by decide) h
  unfold sizeFormat
  rw [if_neg c1, if_neg c2, if_neg c3]

theorem sizeFormat_isSome_getLast {l : List Char}
    (h : (sizeFormat l).isSome = true) :
    ∃ cu, l.getLast? = some cu ∧ cu ∈ ['k', 'K', 'm', 'M', 'g', 'G'] := by
  unfold sizeFormat at h
  by_cases h1 : l.getLast? = some 'k' ∨ l.getLast? = some 'K'
  · rcases h1 with h1 | h1
    · exact ⟨'k', h1, by decide⟩
    · exact ⟨'K', h1, by decide⟩
  by_cases h2 : l.getLast? = some 'm' ∨ l.getLast? = some 'M'
  · rcases h2 with h2 | h2
    · exact ⟨'m', h2, by decide⟩
    · exact ⟨'M', h2, by decide⟩
  by_cases h3 : l.getLast? = some 'g' ∨ l.getLast? = some 'G'
  · rcases h3 with h3 | h3
    · exact ⟨'g', h3, by decide⟩
    · exact ⟨'G', h3, by decide⟩
  rw [if_neg h1, if_neg h2, if_neg h3] at h
  simp at h

theorem parse_size_data (l : List Char) :
    parse_size ⟨l⟩ =
      match parseU64core (if (sizeFormat l).isSome then l.dropLast else l) with
      | none => SizeResult.parseError
      | some num => applyFormat (sizeFormat l) num := rfl

theorem parse_size_unit_case {ds : List Char} {u : Char} {s : Size} {m : Nat}
    (hsf : sizeFormat (ds ++ [u]) = some s)
    (happ : ∀ num, applyFormat (some s) num =
      if num * m < U64LIMIT then SizeResult.ok (num * m) else SizeResult.overflowPanic)
    (h1 : ds ≠ []) (h2 : ds.all Char.isDigit = true)
    (hm : 0 < m) (h3 : digitsVal ds * m < U64LIMIT) :
    parse_size ⟨ds ++ [u]⟩ = SizeResult.ok (digitsVal ds * m) := by
  have hds : digitsVal ds < U64LIMIT :=
    Nat.lt_of_le_of_lt (Nat.le_mul_of_pos_right _ hm) h3
  rw [parse_size_data, hsf]
  simp only [Option.isSome_some, if_true]
  rw [List.dropLast_concat]
  rw [parseU64core_of_digits h1 h2 hds]
  dsimp only
  rw [happ, if_pos h3]

theorem parse_size_unit_overflow {ds : List Char} {u : Char} {s : Size} {m : Nat}
    (hsf : sizeFormat (ds ++ [u]) = some s)
    (happ : ∀ num, applyFormat (some s) num =
      if num * m < U64LIMIT then SizeResult.ok (num * m) else SizeResult.overflowPanic)
    (h1 : ds ≠ []) (h2 : ds.all Char.isDigit = true)
    (hds : digitsVal ds < U64LIMIT) (h3 : U64LIMIT ≤ digitsVal ds * m) :
    parse_size ⟨ds ++ [u]⟩ = SizeResult.overflowPanic := by
  rw [parse_size_data, hsf]
  simp only [Option.isSome_some, if_true]
  rw [List.dropLast_concat]
  rw [parseU64core_of_digits h1 h2 hds]
  dsimp only
  rw [happ, if_neg (by omega)]

theorem parse_size_def (input : String) :
    parse_size input =
      match parseU64core
          (if (sizeFormat input.data).isSome then input.data.dropLast else input.data) with
      | none => SizeResult.parseError
      | some num => applyFormat (sizeFormat input.data) num := rfl

theorem sizeFormat_concat_k (ds : List Char) :
    sizeFormat (ds ++ ['k']) = some Size.Kilobyte := by
  unfold sizeFormat
  rw [List.getLast?_concat, if_pos (by decide)]

theorem sizeFormat_concat_K (ds : List Char) :
    sizeFormat (ds ++ ['K']) = some Size.Kilobyte := by
  unfold sizeFormat
  rw [List.getLast?_concat, if_pos (by decide)]

theorem sizeFormat_concat_m (ds : List Char) :
    sizeFormat (ds ++ ['m']) = some Size.Megabyte := by
  unfold sizeFormat
  rw [List.getLast?_concat, if_neg (by decide), if_pos (by decide)]

theorem sizeFormat_concat_M (ds : List Char) :
    sizeFormat (ds ++ ['M']) = some Size.Megabyte := by
  unfold sizeFormat
  rw [List.getLast?_concat, if_neg (by decide), if_pos (by decide)]

theorem sizeFormat_concat_g (ds : List Char) :
    sizeFormat (ds ++ ['g']) = some Size.Gigabyte := by
  unfold sizeFormat
  rw [List.getLast?_concat, if_neg (by decide), if_neg (by decide), if_pos (by decide)]

theorem sizeFormat_concat_G (ds : List Char) :
    sizeFormat (ds ++ ['G']) = some Size.Gigabyte := by
  unfold sizeFormat
  rw [List.getLast?_concat, if_neg (by decide), if_neg (by decide), if_pos (by decide)]

/-! ### Claim C1 -/

/-- **C1.**  For every valid decimal string with suffix among the empty
suffix, `k`, `K`, `m`, `M`, `g`, `G`, `parse_size` returns the decimal
value multiplied by the corresponding power-of-1024 multiplier (1 for no
suffix, 1024 for k/K, 1024^2 for m/M, 1024^3 for g/G). -/
theorem C1_parse_size_suffix_multipliers (sc : String × Nat)
    (hsc : sc ∈ [("", 1), ("k", 1024), ("K", 1024), ("m", 1024 * 1024),
      ("M", 1024 * 1024), ("g", 1024 * 1024 * 1024), ("G", 1024 * 1024 * 1024)])
    (ds : List Char) (h1 : ds ≠ []) (h2 : ds.all Char.isDigit = true)
    (h3 : digitsVal ds * sc.2 < U64LIMIT) :
    parse_size ⟨ds ++ sc.1.data⟩ = SizeResult.ok (digitsVal ds * sc.2) := by
  simp only [List.mem_cons, List.not_mem_nil, or_false] at hsc
  rcases hsc with rfl | rfl | rfl | rfl | rfl | rfl | rfl
  · have hds : digitsVal ds < U64LIMIT := by simpa using h3
    rw [show ("" : String).data = ([] : List Char) from rfl, List.append_nil]
    rw [parse_size_data, sizeFormat_of_digits h2]
    simp only [Option.isSome_none, Bool.false_eq_true, if_false]
    rw [parseU64core_of_digits h1 h2 hds]
    dsimp only [applyFormat]
    rw [Nat.mul_one]
  · rw [show ("k" : String).data = ['k'] from rfl]
    exact parse_size_unit_case (sizeFormat_concat_k ds) (fun num => rfl) h1 h2
      (by norm_num) h3
  · rw [show ("K" : String).data = ['K'] from rfl]
    exact parse_size_unit_case (sizeFormat_concat_K ds) (fun num => rfl) h1 h2
      (by norm_num) h3
  · rw [show ("m" : String).data = ['m'] from rfl]
    exact parse_size_unit_case (sizeFormat_concat_m ds) (fun num => rfl) h1 h2
      (by norm_num) h3
  · rw [show ("M" : String).data = ['M'] from rfl]
    exact parse_size_unit_case (sizeFormat_concat_M ds) (fun num => rfl) h1 h2
      (by norm_num) h3
  · rw [show ("g" : String).data = ['g'] from rfl]
    exact parse_size_unit_case (sizeFormat_concat_g ds) (fun num => rfl) h1 h2
      (by norm_num) h3
  · rw [show ("G" : String).data = ['G'] from rfl]
    exact parse_size_unit_case (sizeFormat_concat_G ds) (fun num => rfl) h1 h2
      (by norm_num) h3

/-- Witness for C1 at concrete inputs: `"10k"` parses to `10 * 1024` and
`"7"` parses to `7`. -/
theorem C1_parse_size_suffix_multipliers_witness :
    parse_size "10k" = SizeResult.ok 10240 ∧ parse_size "7" = SizeResult.ok 7 := by
  constructor
  · exact C1_parse_size_suffix_multipliers ("k", 1024) (by decide) ['1', '0']
      (by decide) (by decide) (by decide)
  · exact C1_parse_size_suffix_multipliers ("", 1) (by decide) ['7']
      (by decide) (by decide) (by decide)

/-! ### Claim C2 -/

theorem parseU64digits_some {l2 : List Char} {v : Nat}
    (h : parseU64digits l2 = some v) :
    l2 ≠ [] ∧ l2.all Char.isDigit = true ∧ digitsVal l2 < U64LIMIT ∧ v = digitsVal l2 := by
  unfold parseU64digits at h
  by_cases h1 : l2.isEmpty = true
  · rw [if_pos h1] at h
    exact absurd h (by simp)
  · rw [if_neg h1] at h
    by_cases h2 : l2.all Char.isDigit = true
    · rw [if_pos h2] at h
      by_cases h3 : digitsVal l2 < U64LIMIT
      · rw [if_pos h3] at h
        refine ⟨by simpa [List.isEmpty_iff] using h1, h2, h3, (Option.some.inj h).symm⟩
      · rw [if_neg h3] at h
        exact absurd h (by simp)
    · rw [if_neg h2] at h
      exact absurd h (by simp)

/-- An input accepted by `u64::from_str` is an optional leading `+`
followed by a nonempty in-range digit run. -/
theorem parseU64core_some_shape {l : List Char} {v : Nat}
    (h : parseU64core l = some v) :
    ∃ ds : List Char, ds ≠ [] ∧ ds.all Char.isDigit = true ∧
      digitsVal ds < U64LIMIT ∧ (l = ds ∨ l = '+' :: ds) := by
  unfold parseU64core at h
  by_cases hp : l.head? = some '+'
  · rw [if_pos hp] at h
    obtain ⟨hne, hdig, hlt, _⟩ := parseU64digits_some h
    refine ⟨l.tail, hne, hdig, hlt, Or.inr ?_⟩
    cases l with
    | nil => simp at hp
    | cons c t =>
      have hc : c = '+' := by simpa using hp
      rw [hc]
      rfl
  · rw [if_neg hp] at h
    obtain ⟨hne, hdig, hlt, _⟩ := parseU64digits_some h
    exact ⟨l, hne, hdig, hlt, Or.inl rfl⟩

/-- **C2.**  `parse_size` fails for empty or non-numeric input (a
`ParseIntError`): every input on which it does not fail with a parse
error has the numeric shape — an optional `+`, a nonempty in-range digit
run, and an optional unit suffix — so all other inputs (e.g. `kk`,
`5k5`, `1+2`, `1k2k`) are parse errors; and it fails (panics) rather
than wrapping when the suffix multiplication would overflow the 64-bit
unsigned range.  In no failure case is a size value produced. -/
theorem C2_parse_size_failures :
    parse_size "" = SizeResult.parseError
    ∧ (∀ s : String, parse_size s ≠ SizeResult.parseError →
        ∃ ds sfx, sfx ∈ [([] : List Char), ['k'], ['K'], ['m'], ['M'], ['g'], ['G']] ∧
          ds ≠ [] ∧ ds.all Char.isDigit = true ∧ digitsVal ds < U64LIMIT ∧
          (s.data = ds ++ sfx ∨ s.data = '+' :: (ds ++ sfx)))
    ∧ (∀ sc : Char × Size × Nat,
        sc ∈ [('k', Size.Kilobyte, 1024), ('K', Size.Kilobyte, 1024),
          ('m', Size.Megabyte, 1024 * 1024), ('M', Size.Megabyte, 1024 * 1024),
          ('g', Size.Gigabyte, 1024 * 1024 * 1024), ('G', Size.Gigabyte, 1024 * 1024 * 1024)] →
        ∀ ds : List Char, ds ≠ [] → ds.all Char.isDigit = true →
          digitsVal ds < U64LIMIT → U64LIMIT ≤ digitsVal ds * sc.2.2 →
          parse_size ⟨ds ++ [sc.1]⟩ = SizeResult.overflowPanic)
    ∧ parse_size "1x" = SizeResult.parseError
    ∧ parse_size "kk" = SizeResult.parseError
    ∧ parse_size "5k5" = SizeResult.parseError
    ∧ parse_size "1+2" = SizeResult.parseError
    ∧ parse_size "1k2k" = SizeResult.parseError := by
  refine ⟨by decide, ?_, ?_, by decide, by decide, by decide, by decide, by decide⟩
  · intro s hne
    rw [parse_size_def s] at hne
    by_cases hsf : (sizeFormat s.data).isSome = true
    · obtain ⟨cu, hcu, hcuu⟩ := sizeFormat_isSome_getLast hsf
      obtain ⟨ys, hys⟩ := List.getLast?_eq_some_iff.mp hcu
      rw [if_pos hsf, hys, List.dropLast_concat] at hne
      cases hcore : parseU64core ys with
      | none =>
        rw [hcore] at hne
        exact absurd rfl hne
      | some v =>
        obtain ⟨ds, hds, hdig, hlt, hshape⟩ := parseU64core_some_shape hcore
        refine ⟨ds, [cu], ?_, hds, hdig, hlt, ?_⟩
        · simp only [List.mem_cons, List.not_mem_nil, or_false] at hcuu
          rcases hcuu with rfl | rfl | rfl | rfl | rfl | rfl <;> decide
        · rcases hshape with h | h
          · exact Or.inl (by rw [hys, h])
          · refine Or.inr ?_
            rw [hys, h]
            rfl
    · rw [if_neg hsf] at hne
      cases hcore : parseU64core s.data with
      | none =>
        rw [hcore] at hne
        exact absurd rfl hne
      | some v =>
        obtain ⟨ds, hds, hdig, hlt, hshape⟩ := parseU64core_some_shape hcore
        refine ⟨ds, [], by decide, hds, hdig, hlt, ?_⟩
        rcases hshape with h | h
        · exact Or.inl (by rw [List.append_nil]; exact h)
        · exact Or.inr (by rw [List.append_nil]; exact h)
  · intro sc hsc ds h1 h2 hds h3
    simp only [List.mem_cons, List.not_mem_nil, or_false] at hsc
    rcases hsc with rfl | rfl | rfl | rfl | rfl | rfl
    · exact parse_size_unit_overflow (sizeFormat_concat_k ds) (fun num => rfl) h1 h2 hds h3
    · exact parse_size_unit_overflow (sizeFormat_concat_K ds) (fun num => rfl) h1 h2 hds h3
    · exact parse_size_unit_overflow (sizeFormat_concat_m ds) (fun num => rfl) h1 h2 hds h3
    · exact parse_size_unit_overflow (sizeFormat_concat_M ds) (fun num => rfl) h1 h2 hds h3
    · exact parse_size_unit_overflow (sizeFormat_concat_g ds) (fun num => rfl) h1 h2 hds h3
    · exact parse_size_unit_overflow (sizeFormat_concat_G ds) (fun num => rfl) h1 h2 hds h3

/-- Witness for C2 at concrete inputs: the non-failing input `"12k"` is
forced to have the numeric shape, and the largest `u64` value with
suffix `k` panics on overflow. -/
theorem C2_parse_size_failures_witness :
    (∃ ds sfx, sfx ∈ [([] : List Char), ['k'], ['K'], ['m'], ['M'], ['g'], ['G']] ∧
      ds ≠ [] ∧ ds.all Char.isDigit = true ∧ digitsVal ds < U64LIMIT ∧
      (("12k" : String).data = ds ++ sfx ∨ ("12k" : String).data = '+' :: (ds ++ sfx)))
    ∧ parse_size "18446744073709551615k" = SizeResult.overflowPanic := by
  constructor
  · exact C2_parse_size_failures.2.1 "12k" (by decide)
  · exact C2_parse_size_failures.2.2.1 ('k', Size.Kilobyte, 1024) (by decide)
      ("18446744073709551615".data) (by decide) (by decide) (by decide) (by decide)

/-! ### Claims C3 and C4: classification order and precedence -/

/-- An environment in which no path exists (so every token fails the
file check). -/
def envNoFiles : Env := ⟨"/work", fun _ => false⟩

/-- An environment in which exactly the path `/work/@@` exists (a real
file named like the placeholder marker, relative to the working
directory). -/
def envAtAt : Env := ⟨"/work", fun p => p == "/work/@@"⟩

/-- The source's fall-through condition: the token fails the
existing-file check, either because `std::path::absolute` errs or because
the resolved path does not exist or falls under `/dev`. -/
def fileCheckFails (env : Env) (tok : String) : Prop :=
  (absolutize env.cwd tok).elim True
    (fun p => env.fileExists p = false ∨ strStartsWith tok "/dev" = true)

/-- **C3.**  Argument classification processes tokens in original order
and preserves that order: the loop's rewritten argument list is exactly
the per-token rewrite of the classified token sequence (so the i-th
rewritten argument corresponds to the i-th input token), and for the raw
argument string `"a @@ b"` (neither `a` nor `b` resolving to an existing
file) the token sequence is exactly
`[Literal "a", PlaceholderInputFile, Literal "b"]`. -/
theorem C3_argument_order :
    (∀ (env : Env) (toks : List String) (tks : List ArgToken),
      tokensOf env toks = some tks →
      classifyLoop env toks =
        some { arguments := tks.map rewriteOf,
               files := tks.filterMap copyOf,
               hasFile := tks.any isPlaceholderB })
    ∧ tokensOf envNoFiles (splitChar ' ' "a @@ b") =
        some [ArgToken.Literal "a", ArgToken.PlaceholderInputFile, ArgToken.Literal "b"]
    ∧ (classifyLoop envNoFiles (splitChar ' ' "a @@ b")).map ClassifyResult.arguments =
        some ["a", "/opt/truncated_input_file", "b"] := by
  refine ⟨fun env toks tks h => classifyLoop_eq h, by decide, by decide⟩

/-- Witness for C3: the loop on a single literal token produces that
token unchanged, via the general correspondence. -/
theorem C3_argument_order_witness :
    classifyLoop envNoFiles ["x"] =
      some { arguments := ["x"], files := [], hasFile := false } := by
  have h := C3_argument_order.1 envNoFiles ["x"] [ArgToken.Literal "x"] (by decide)
  exact h

/-- **C4.**  The existing-file check runs before the placeholder-marker
check: a token resolving to an existing path (not under `/dev`) is
classified as a staged file reference even when the token is literally
`"@@"`; only a token failing the file check and equal to `"@@"` becomes
the placeholder, and only then does it fall through to a literal. -/
theorem C4_file_check_precedence :
    (∀ (env : Env) (tok p n : String),
      absolutize env.cwd tok = some p → env.fileExists p = true →
      strStartsWith tok "/dev" = false → fileName p = some n →
      classifyToken env tok = some (ArgToken.StagedFileReference p n))
    ∧ (∀ env : Env, fileCheckFails env "@@" →
        classifyToken env "@@" = some ArgToken.PlaceholderInputFile)
    ∧ (∀ (env : Env) (tok : String), fileCheckFails env tok → tok ≠ "@@" →
        classifyToken env tok = some (ArgToken.Literal tok)) := by
  refine ⟨?_, ?_, ?_⟩
  · intro env tok p n habs hex hsw hfn
    unfold classifyToken
    rw [habs]
    dsimp only
    rw [if_pos (by rw [hex, hsw]; rfl)]
    rw [hfn]
    rfl
  · intro env hfail
    unfold classifyToken
    cases habs : absolutize env.cwd "@@" with
    | none => dsimp only; rw [if_pos rfl]
    | some p =>
      unfold fileCheckFails at hfail
      rw [habs] at hfail
      have hcond : (env.fileExists p && !strStartsWith "@@" "/dev") = false := by
        rcases hfail with h | h
        · rw [h]; rfl
        · rw [h]; simp
      dsimp only
      rw [if_neg (by rw [hcond]; exact Bool.false_ne_true)]
      rw [if_pos rfl]
  · intro env tok hfail hne
    unfold classifyToken
    cases habs : absolutize env.cwd tok with
    | none => dsimp only; rw [if_neg hne]
    | some p =>
      unfold fileCheckFails at hfail
      rw [habs] at hfail
      have hcond : (env.fileExists p && !strStartsWith tok "/dev") = false := by
        rcases hfail with h | h
        · rw [h]; rfl
        · rw [h]; simp
      dsimp only
      rw [if_neg (by rw [hcond]; exact Bool.false_ne_true)]
      rw [if_neg hne]

/-- Witness for C4: a real file named `/work/@@` is staged even though
the token is the placeholder marker; without such a file the marker
becomes the placeholder and other tokens stay literal. -/
theorem C4_file_check_precedence_witness :
    classifyToken envAtAt "@@" = some (ArgToken.StagedFileReference "/work/@@" "@@")
    ∧ classifyToken envNoFiles "@@" = some ArgToken.PlaceholderInputFile
    ∧ classifyToken envNoFiles "x" = some (ArgToken.Literal "x") := by
  refine ⟨?_, ?_, ?_⟩
  · exact C4_file_check_precedence.1 envAtAt "@@" "/work/@@" "@@"
      (by decide) (by decide) (by decide) (by decide)
  · exact C4_file_check_precedence.2.1 envNoFiles (Or.inl rfl)
  · exact C4_file_check_precedence.2.2 envNoFiles "x" (Or.inl rfl) (by decide)

/-! ### Claims C6, C7, C8, C10: declaration lines and end-to-end scenarios -/

/-- A plain invocation: binary `/bin/tool`, no options, no arguments. -/
def argsPlain : CommandLineArgs :=
  ⟨none, none, false, none, none, "/bin/tool", none⟩

/-- The same invocation with the libfuzzer flag set. -/
def argsLibfuzzer : CommandLineArgs :=
  ⟨none, none, true, none, none, "/bin/tool", none⟩

/-- The invocation whose raw argument string is present but empty. -/
def argsEmptyArg : CommandLineArgs :=
  ⟨none, none, false, none, none, "/bin/tool", some ""⟩

/-- Environment for the staged-file scenario: exactly `/tmp/cfg.json`
exists. -/
def envCfg : Env := ⟨"/work", fun p => p == "/tmp/cfg.json"⟩

/-- The staged-file scenario: raw arguments `-x /tmp/cfg.json`. -/
def argsCfg : CommandLineArgs :=
  ⟨none, none, false, none, none, "/bin/tool", some "-x /tmp/cfg.json"⟩

/-- **C6.**  The break-function declaration binds the explicit
user-supplied name when given; otherwise `LLVMFuzzerTestOneInput` when
the libfuzzer flag is set, and `main` when it is not; the bound value is
what the `ENV SNAPSHOT_FUNCTION` declaration carries. -/
theorem C6_break_function :
    (∀ (args : CommandLineArgs) (f : String),
      args.function = some f → functionOf args = f)
    ∧ (∀ args : CommandLineArgs, args.function = none → args.libfuzzer = true →
        functionOf args = "LLVMFuzzerTestOneInput")
    ∧ (∀ args : CommandLineArgs, args.function = none → args.libfuzzer = false →
        functionOf args = "main")
    ∧ occursStr "ENV SNAPSHOT_FUNCTION=main\n"
        ((mainDockerfile envNoFiles argsPlain).getD "") = true
    ∧ occursStr "ENV SNAPSHOT_FUNCTION=LLVMFuzzerTestOneInput\n"
        ((mainDockerfile envNoFiles argsLibfuzzer).getD "") = true := by
  refine ⟨?_, ?_, ?_, by decide, by decide⟩
  · intro args f h
    unfold functionOf
    rw [h]
    rfl
  · intro args h hl
    unfold functionOf
    rw [h, hl]
    rfl
  · intro args h hl
    unfold functionOf
    rw [h, hl]
    rfl

/-- Witness for C6 at concrete argument records. -/
theorem C6_break_function_witness :
    functionOf ⟨some "foo", none, true, none, none, "/b", none⟩ = "foo"
    ∧ functionOf argsLibfuzzer = "LLVMFuzzerTestOneInput"
    ∧ functionOf argsPlain = "main" := by
  refine ⟨?_, ?_, ?_⟩
  · exact C6_break_function.1 ⟨some "foo", none, true, none, none, "/b", none⟩ "foo" rfl
  · exact C6_break_function.2.1 argsLibfuzzer rfl rfl
  · exact C6_break_function.2.2.1 argsPlain rfl rfl

/-- **C7.**  An argument declaration line is appended iff the rewritten
argument list is non-empty; when appended it carries the space-joined
arguments as one quoted value; when empty, no such declaration appears at
all (the manifest is exactly the base plus the two fixed declarations). -/
theorem C7_arguments_line :
    (∀ arguments : List String, arguments ≠ [] →
      argumentsLineOf arguments =
        "ENV SNAPSHOT_ENTRYPOINT_ARGUMENTS=\"" ++ String.intercalate " " arguments ++ "\"\n")
    ∧ argumentsLineOf [] = ""
    ∧ (∀ (env : Env) (args : CommandLineArgs) (bn : String) (r : ClassifyResult),
        fileName args.binary = some bn →
        classifyLoop env (argTokens args) = some r →
        r.arguments = [] →
        mainDockerfile env args = some (renderBase args.binary bn
            (String.intercalate " " (args.packages.getD []))
            (truncateOf r.hasFile args.input_file_size)
            (String.intercalate "\n" r.files)
          ++ "ENV SNAPSHOT_FUNCTION=" ++ functionOf args ++ "\n"
          ++ "ENV SNAPSHOT_IMGTYPE=" ++ imgtypeOf args ++ "\n"))
    ∧ occursStr "SNAPSHOT_ENTRYPOINT_ARGUMENTS"
        ((mainDockerfile envNoFiles argsPlain).getD "") = false := by
  refine ⟨?_, rfl, ?_, by decide⟩
  · intro arguments h
    unfold argumentsLineOf
    rw [if_neg (by simp [List.isEmpty_iff, h])]
  · intro env args bn r hbn hcl harg
    unfold mainDockerfile
    rw [hbn, hcl]
    show some _ = some _
    rw [harg]
    rw [show argumentsLineOf [] = "" from rfl]
    rw [String.append_empty]

/-- Witness for C7: a one-element list yields the quoted joined line; the
no-arguments manifest is exactly base plus the two fixed declarations. -/
theorem C7_arguments_line_witness :
    argumentsLineOf ["-x"] = "ENV SNAPSHOT_ENTRYPOINT_ARGUMENTS=\"-x\"\n"
    ∧ mainDockerfile envNoFiles argsPlain = some (renderBase argsPlain.binary "tool"
        (String.intercalate " " (argsPlain.packages.getD []))
        (truncateOf false argsPlain.input_file_size)
        (String.intercalate "\n" ([] : List String))
      ++ "ENV SNAPSHOT_FUNCTION=" ++ functionOf argsPlain ++ "\n"
      ++ "ENV SNAPSHOT_IMGTYPE=" ++ imgtypeOf argsPlain ++ "\n") := by
  constructor
  · exact C7_arguments_line.1 ["-x"] (by decide)
  · exact C7_arguments_line.2.2.1 envNoFiles argsPlain "tool" ⟨[], [], false⟩
      (by decide) (by decide) rfl

/-- **C8.**  For raw arguments `-x /tmp/cfg.json` where `/tmp/cfg.json`
exists (and `-x` does not resolve to an existing file), the file-copy
block contains exactly the one copy instruction for `cfg.json`, the
rewritten arguments are `-x /opt/cfg.json`, and the manifest carries both
the copy line and the quoted argument declaration. -/
theorem C8_staged_file_scenario :
    (classifyLoop envCfg (argTokens argsCfg)).map ClassifyResult.files =
      some ["COPY \"/tmp/cfg.json\" /opt"]
    ∧ (classifyLoop envCfg (argTokens argsCfg)).map ClassifyResult.arguments =
      some ["-x", "/opt/cfg.json"]
    ∧ (mainDockerfile envCfg argsCfg).isSome = true
    ∧ occursStr "COPY \"/tmp/cfg.json\" /opt\n"
        ((mainDockerfile envCfg argsCfg).getD "") = true
    ∧ occursStr "ENV SNAPSHOT_ENTRYPOINT_ARGUMENTS=\"-x /opt/cfg.json\"\n"
        ((mainDockerfile envCfg argsCfg).getD "") = true := by
  refine ⟨by decide, by decide, by decide, by decide, by decide⟩

/-- **C10.**  A present-but-empty raw argument string splits into the
single empty token, classified as a literal, so the rewritten list is the
non-empty list containing the empty string and the manifest carries
the declaration line with an empty quoted value rather than omitting
it. -/
theorem C10_empty_argument_string :
    splitChar ' ' "" = [""]
    ∧ tokensOf envNoFiles (argTokens argsEmptyArg) = some [ArgToken.Literal ""]
    ∧ (classifyLoop envNoFiles (argTokens argsEmptyArg)).map ClassifyResult.arguments =
      some [""]
    ∧ occursStr "ENV SNAPSHOT_ENTRYPOINT_ARGUMENTS=\"\"\n"
        ((mainDockerfile envNoFiles argsEmptyArg).getD "") = true := by
  refine ⟨by decide, by decide, by decide, by decide⟩

/-! ### Claim C5: the truncation directive -/

/-- The end-to-end scenario of the spec: binary `/bin/tool`, raw
arguments `"@@"`, no explicit size. -/
def argsAtAt : CommandLineArgs :=
  ⟨none, none, false, none, none, "/bin/tool", some "@@"⟩

theorem isPlaceholderB_eq_true_iff {tk : ArgToken} :
    isPlaceholderB tk = true ↔ tk = ArgToken.PlaceholderInputFile := by
  cases tk <;> simp [isPlaceholderB]

/-- **C5.**  The truncation directive is nonempty iff some token was
classified as the placeholder (the loop flag equals the presence of a
`PlaceholderInputFile` token); with no explicit size it requests exactly
32768 bytes at `/opt/truncated_input_file`; when no truncation is
requested the directive is empty whatever the size option holds, and the
manifest does not depend on the size option at all; in the end-to-end
`"@@"` scenario the rendered manifest carries the default directive. -/
theorem C5_truncation_directive :
    (∀ (hasFile : Bool) (sz : Option Nat), truncateOf hasFile sz ≠ "" ↔ hasFile = true)
    ∧ (∀ (env : Env) (toks : List String) (tks : List ArgToken) (r : ClassifyResult),
        tokensOf env toks = some tks → classifyLoop env toks = some r →
        (r.hasFile = true ↔ ArgToken.PlaceholderInputFile ∈ tks))
    ∧ truncateOf true none = "RUN truncate -s 32768 /opt/truncated_input_file"
    ∧ (∀ sz : Option Nat, truncateOf false sz = "")
    ∧ (∀ (env : Env) (args : CommandLineArgs) (r : ClassifyResult) (sz1 sz2 : Option Nat),
        classifyLoop env (argTokens args) = some r → r.hasFile = false →
        mainDockerfile env { args with input_file_size := sz1 } =
          mainDockerfile env { args with input_file_size := sz2 })
    ∧ occursStr "RUN truncate -s 32768 /opt/truncated_input_file\n"
        ((mainDockerfile envNoFiles argsAtAt).getD "") = true
    ∧ occursStr "ENV SNAPSHOT_ENTRYPOINT_ARGUMENTS=\"/opt/truncated_input_file\"\n"
        ((mainDockerfile envNoFiles argsAtAt).getD "") = true
    ∧ occursStr "RUN truncate" ((mainDockerfile envNoFiles argsPlain).getD "") = false := by
  refine ⟨?_, ?_, by decide, fun sz => rfl, ?_, by decide, by decide, by decide⟩
  · intro hasFile sz
    cases hasFile
    · simp [truncateOf]
    · simp only [truncateOf, if_true]
      constructor
      · intro _; trivial
      · intro _ hzero
        have hlen : ("RUN truncate -s " ++ Nat.repr (sz.getD (32 * 1024)) ++ " "
            ++ TRUNCATE_FILE_NAME).length = 0 := by rw [hzero]; rfl
        simp only [String.length_append] at hlen
        have h16 : ("RUN truncate -s " : String).length = 16 := rfl
        omega
  · intro env toks tks r htk hcl
    have h2 := classifyLoop_eq htk
    rw [hcl] at h2
    have hr := Option.some.inj h2
    rw [hr]
    show tks.any isPlaceholderB = true ↔ _
    rw [List.any_eq_true]
    constructor
    · rintro ⟨tk, hmem, hpl⟩
      rw [isPlaceholderB_eq_true_iff] at hpl
      rwa [hpl] at hmem
    · intro hmem
      exact ⟨ArgToken.PlaceholderInputFile, hmem, rfl⟩
  · intro env args r sz1 sz2 hcl hhf
    unfold mainDockerfile
    dsimp only
    cases hbn : fileName args.binary with
    | none => simp
    | some bn =>
      rw [show argTokens { args with input_file_size := sz1 } = argTokens args from rfl,
        show argTokens { args with input_file_size := sz2 } = argTokens args from rfl,
        hcl,
        show functionOf { args with input_file_size := sz1 } = functionOf args from rfl,
        show functionOf { args with input_file_size := sz2 } = functionOf args from rfl,
        show imgtypeOf { args with input_file_size := sz1 } = imgtypeOf args from rfl,
        show imgtypeOf { args with input_file_size := sz2 } = imgtypeOf args from rfl]
      show some _ = some _
      rw [hhf]
      rfl

/-- Witness for C5 at concrete inputs. -/
theorem C5_truncation_directive_witness :
    truncateOf true (some 5) ≠ ""
    ∧ ((⟨["/opt/truncated_input_file"], [], true⟩ : ClassifyResult).hasFile = true ↔
        ArgToken.PlaceholderInputFile ∈ [ArgToken.PlaceholderInputFile])
    ∧ truncateOf false (some 99) = ""
    ∧ mainDockerfile envNoFiles { argsPlain with input_file_size := some 1 } =
        mainDockerfile envNoFiles { argsPlain with input_file_size := some 2 } := by
  refine ⟨?_, ?_, ?_, ?_⟩
  · exact (C5_truncation_directive.1 true (some 5)).mpr rfl
  · exact C5_truncation_directive.2.1 envNoFiles ["@@"] [ArgToken.PlaceholderInputFile]
      ⟨["/opt/truncated_input_file"], [], true⟩ (by decide) (by decide)
  · exact C5_truncation_directive.2.2.2.1 (some 99)
  · exact C5_truncation_directive.2.2.2.2.1 envNoFiles argsPlain ⟨[], [], false⟩
      (some 1) (some 2) (by decide) rfl

/-! ### Claim C9: placeholder substitution -/

/-- A string containing no `$` character: substituting such values can
neither create nor retain a placeholder marker. -/
def dollarFree (s : String) : Bool := s.data.all (fun c => !(c == '$'))

theorem dollarFree_mem {s : String} (h : dollarFree s = true) :
    ∀ c ∈ s.data, c ≠ '$' := by
  intro c hc
  have := List.all_eq_true.mp h c hc
  simpa using this

/-- The template text before the `$BINARY$` marker. -/
def X1 : List Char := frag0.data ++ mPACKAGES ++ frag1.data

/-- The template text between the `$BINARY$` and `$BINARYNAME$`
markers. -/
def B1 : List Char := frag2.data ++ mTRUNCATE ++ frag3.data ++ mFILES ++ frag4.data

theorem renderBase_decomposition (vB vBN vP vT vF : String)
    (hB : dollarFree vB = true) (hBN : dollarFree vBN = true)
    (hP : dollarFree vP = true) (hT : dollarFree vT = true) :
    (renderBase vB vBN vP vT vF).data =
      frag0.data ++ vP.data ++ frag1.data ++ vB.data ++ frag2.data ++ vT.data
        ++ frag3.data ++ vF.data ++ frag4.data ++ vBN.data ++ frag5.data := by
  have hvB := dollarFree_mem hB
  have hvBN := dollarFree_mem hBN
  have hvP := dollarFree_mem hP
  have hvT := dollarFree_mem hT
  have s1 : (replaceStr DOCKERFILE "$BINARY$" vB).data =
      X1 ++ vB.data ++ (B1 ++ mBINARYNAME ++ frag5.data) := by
    show replaceAll mBINARY vB.data DOCKERFILE.data = _
    rw [show DOCKERFILE.data = X1 ++ mBINARY ++ (B1 ++ mBINARYNAME ++ frag5.data)
      from by decide]
    exact @replaceAll_single mBINARY vB.data X1 (B1 ++ mBINARYNAME ++ frag5.data)
      (by decide) (noStarts_of_fragSafe (by decide) _) (by decide)
  have s2 : (replaceStr (replaceStr DOCKERFILE "$BINARY$" vB) "$BINARYNAME$" vBN).data =
      X1 ++ vB.data ++ B1 ++ vBN.data ++ frag5.data := by
    show replaceAll mBINARYNAME vBN.data (replaceStr DOCKERFILE "$BINARY$" vB).data = _
    rw [s1]
    rw [show X1 ++ vB.data ++ (B1 ++ mBINARYNAME ++ frag5.data) =
      X1 ++ vB.data ++ B1 ++ mBINARYNAME ++ frag5.data
      from by simp only [List.append_assoc]]
    exact @replaceAll_single mBINARYNAME vBN.data (X1 ++ vB.data ++ B1) frag5.data
      (by decide)
      (@NoStarts.append mBINARYNAME (X1 ++ vB.data) B1 (mBINARYNAME ++ frag5.data)
        (@NoStarts.append mBINARYNAME X1 vB.data (B1 ++ (mBINARYNAME ++ frag5.data))
          (noStarts_of_fragSafe (by decide) _)
          (noStarts_of_head_nomem rfl hvB))
        (noStarts_of_fragSafe (by decide) _))
      (by decide)
  have s3 : (replaceStr (replaceStr (replaceStr DOCKERFILE "$BINARY$" vB)
        "$BINARYNAME$" vBN) "$PACKAGES$" vP).data =
      frag0.data ++ vP.data ++ (frag1.data ++ vB.data ++ B1 ++ vBN.data ++ frag5.data) := by
    show replaceAll mPACKAGES vP.data
      (replaceStr (replaceStr DOCKERFILE "$BINARY$" vB) "$BINARYNAME$" vBN).data = _
    rw [s2]
    rw [show X1 ++ vB.data ++ B1 ++ vBN.data ++ frag5.data =
      frag0.data ++ mPACKAGES ++ (frag1.data ++ vB.data ++ B1 ++ vBN.data ++ frag5.data)
      from by simp only [X1, List.append_assoc]]
    refine @replaceAll_single mPACKAGES vP.data frag0.data
      (frag1.data ++ vB.data ++ B1 ++ vBN.data ++ frag5.data)
      (by decide) (noStarts_of_fragSafe (by decide) _) ?_
    refine occursB_eq_false_of_noStarts (by decide) ?_
    exact @NoStarts.append mPACKAGES (frag1.data ++ vB.data ++ B1 ++ vBN.data)
      frag5.data []
      (@NoStarts.append mPACKAGES (frag1.data ++ vB.data ++ B1) vBN.data
        (frag5.data ++ [])
        (@NoStarts.append mPACKAGES (frag1.data ++ vB.data) B1
          (vBN.data ++ (frag5.data ++ []))
          (@NoStarts.append mPACKAGES frag1.data vB.data
            (B1 ++ (vBN.data ++ (frag5.data ++ [])))
            (noStarts_of_fragSafe (by decide) _)
            (noStarts_of_head_nomem rfl hvB))
          (noStarts_of_fragSafe (by decide) _))
        (noStarts_of_head_nomem rfl hvBN))
      (noStarts_of_fragSafe (by decide) _)
  have s4 : (replaceStr (replaceStr (replaceStr (replaceStr DOCKERFILE "$BINARY$" vB)
        "$BINARYNAME$" vBN) "$PACKAGES$" vP) "$TRUNCATE$" vT).data =
      frag0.data ++ vP.data ++ frag1.data ++ vB.data ++ frag2.data ++ vT.data ++
        (frag3.data ++ (mFILES ++ frag4.data) ++ vBN.data ++ frag5.data) := by
    show replaceAll mTRUNCATE vT.data (replaceStr (replaceStr (replaceStr DOCKERFILE
      "$BINARY$" vB) "$BINARYNAME$" vBN) "$PACKAGES$" vP).data = _
    rw [s3]
    rw [show frag0.data ++ vP.data ++ (frag1.data ++ vB.data ++ B1 ++ vBN.data ++ frag5.data) =
      frag0.data ++ vP.data ++ frag1.data ++ vB.data ++ frag2.data ++ mTRUNCATE ++
        (frag3.data ++ (mFILES ++ frag4.data) ++ vBN.data ++ frag5.data)
      from by simp only [B1, List.append_assoc]]
    refine @replaceAll_single mTRUNCATE vT.data
      (frag0.data ++ vP.data ++ frag1.data ++ vB.data ++ frag2.data)
      (frag3.data ++ (mFILES ++ frag4.data) ++ vBN.data ++ frag5.data)
      (by decide) ?_ ?_
    · exact @NoStarts.append mTRUNCATE
        (frag0.data ++ vP.data ++ frag1.data ++ vB.data) frag2.data
        (mTRUNCATE ++ (frag3.data ++ (mFILES ++ frag4.data) ++ vBN.data ++ frag5.data))
        (@NoStarts.append mTRUNCATE (frag0.data ++ vP.data ++ frag1.data) vB.data
          (frag2.data ++ (mTRUNCATE ++ (frag3.data ++ (mFILES ++ frag4.data)
            ++ vBN.data ++ frag5.data)))
          (@NoStarts.append mTRUNCATE (frag0.data ++ vP.data) frag1.data
            (vB.data ++ (frag2.data ++ (mTRUNCATE ++ (frag3.data ++ (mFILES ++ frag4.data)
              ++ vBN.data ++ frag5.data))))
            (@NoStarts.append mTRUNCATE frag0.data vP.data
              (frag1.data ++ (vB.data ++ (frag2.data ++ (mTRUNCATE ++ (frag3.data
                ++ (mFILES ++ frag4.data) ++ vBN.data ++ frag5.data)))))
              (noStarts_of_fragSafe (by decide) _)
              (noStarts_of_head_nomem rfl hvP))
            (noStarts_of_fragSafe (by decide) _))
          (noStarts_of_head_nomem rfl hvB))
        (noStarts_of_fragSafe (by decide) _)
    · refine occursB_eq_false_of_noStarts (by decide) ?_
      exact @NoStarts.append mTRUNCATE
        (frag3.data ++ (mFILES ++ frag4.data) ++ vBN.data) frag5.data []
        (@NoStarts.append mTRUNCATE (frag3.data ++ (mFILES ++ frag4.data)) vBN.data
          (frag5.data ++ [])
          (@NoStarts.append mTRUNCATE frag3.data (mFILES ++ frag4.data)
            (vBN.data ++ (frag5.data ++ []))
            (noStarts_of_fragSafe (by decide) _)
            (noStarts_of_fragSafe (by decide) _))
          (noStarts_of_head_nomem rfl hvBN))
        (noStarts_of_fragSafe (by decide) _)
  show replaceAll mFILES vF.data (replaceStr (replaceStr (replaceStr (replaceStr DOCKERFILE
    "$BINARY$" vB) "$BINARYNAME$" vBN) "$PACKAGES$" vP) "$TRUNCATE$" vT).data = _
  rw [s4]
  rw [show frag0.data ++ vP.data ++ frag1.data ++ vB.data ++ frag2.data ++ vT.data ++
      (frag3.data ++ (mFILES ++ frag4.data) ++ vBN.data ++ frag5.data) =
    frag0.data ++ vP.data ++ frag1.data ++ vB.data ++ frag2.data ++ vT.data ++ frag3.data
      ++ mFILES ++ (frag4.data ++ vBN.data ++ frag5.data)
    from by simp only [List.append_assoc]]
  have s5 : replaceAll mFILES vF.data
      (frag0.data ++ vP.data ++ frag1.data ++ vB.data ++ frag2.data ++ vT.data
        ++ frag3.data ++ mFILES ++ (frag4.data ++ vBN.data ++ frag5.data)) =
      frag0.data ++ vP.data ++ frag1.data ++ vB.data ++ frag2.data ++ vT.data
        ++ frag3.data ++ vF.data ++ (frag4.data ++ vBN.data ++ frag5.data) := by
    refine @replaceAll_single mFILES vF.data
      (frag0.data ++ vP.data ++ frag1.data ++ vB.data ++ frag2.data ++ vT.data
        ++ frag3.data)
      (frag4.data ++ vBN.data ++ frag5.data) (by decide) ?_ ?_
    · exact @NoStarts.append mFILES
        (frag0.data ++ vP.data ++ frag1.data ++ vB.data ++ frag2.data ++ vT.data)
        frag3.data
        (mFILES ++ (frag4.data ++ vBN.data ++ frag5.data))
        (@NoStarts.append mFILES
          (frag0.data ++ vP.data ++ frag1.data ++ vB.data ++ frag2.data) vT.data
          (frag3.data ++ (mFILES ++ (frag4.data ++ vBN.data ++ frag5.data)))
          (@NoStarts.append mFILES
            (frag0.data ++ vP.data ++ frag1.data ++ vB.data) frag2.data
            (vT.data ++ (frag3.data ++ (mFILES ++ (frag4.data ++ vBN.data ++ frag5.data))))
            (@NoStarts.append mFILES (frag0.data ++ vP.data ++ frag1.data) vB.data
              (frag2.data ++ (vT.data ++ (frag3.data ++ (mFILES ++ (frag4.data
                ++ vBN.data ++ frag5.data)))))
              (@NoStarts.append mFILES (frag0.data ++ vP.data) frag1.data
                (vB.data ++ (frag2.data ++ (vT.data ++ (frag3.data ++ (mFILES
                  ++ (frag4.data ++ vBN.data ++ frag5.data))))))
                (@NoStarts.append mFILES frag0.data vP.data
                  (frag1.data ++ (vB.data ++ (frag2.data ++ (vT.data ++ (frag3.data
                    ++ (mFILES ++ (frag4.data ++ vBN.data ++ frag5.data)))))))
                  (noStarts_of_fragSafe (by decide) _)
                  (noStarts_of_head_nomem rfl hvP))
                (noStarts_of_fragSafe (by decide) _))
              (noStarts_of_head_nomem rfl hvB))
            (noStarts_of_fragSafe (by decide) _))
          (noStarts_of_head_nomem rfl hvT))
        (noStarts_of_fragSafe (by decide) _)
    · refine occursB_eq_false_of_noStarts (by decide) ?_
      exact @NoStarts.append mFILES (frag4.data ++ vBN.data) frag5.data []
        (@NoStarts.append mFILES frag4.data vBN.data (frag5.data ++ [])
          (noStarts_of_fragSafe (by decide) _)
          (noStarts_of_head_nomem rfl hvBN))
        (noStarts_of_fragSafe (by decide) _)
  rw [s5]
  simp only [List.append_assoc]

theorem noResidual_flat {pat : List Char} (hp : pat ≠ []) (hph : pat.head? = some '$')
    {vB vBN vP vT vF : String}
    (hvB : ∀ c ∈ vB.data, c ≠ '$') (hvBN : ∀ c ∈ vBN.data, c ≠ '$')
    (hvP : ∀ c ∈ vP.data, c ≠ '$') (hvT : ∀ c ∈ vT.data, c ≠ '$')
    (hvF : ∀ c ∈ vF.data, c ≠ '$')
    (h0 : fragSafeB pat frag0.data = true) (h1 : fragSafeB pat frag1.data = true)
    (h2 : fragSafeB pat frag2.data = true) (h3 : fragSafeB pat frag3.data = true)
    (h4 : fragSafeB pat frag4.data = true) (h5 : fragSafeB pat frag5.data = true) :
    occursB pat (frag0.data ++ vP.data ++ frag1.data ++ vB.data ++ frag2.data ++ vT.data
      ++ frag3.data ++ vF.data ++ frag4.data ++ vBN.data ++ frag5.data) = false := by
  refine occursB_eq_false_of_noStarts hp ?_
  refine @NoStarts.append pat _ frag5.data [] ?_ (noStarts_of_fragSafe h5 _)
  refine @NoStarts.append pat _ vBN.data _ ?_ (noStarts_of_head_nomem hph hvBN)
  refine @NoStarts.append pat _ frag4.data _ ?_ (noStarts_of_fragSafe h4 _)
  refine @NoStarts.append pat _ vF.data _ ?_ (noStarts_of_head_nomem hph hvF)
  refine @NoStarts.append pat _ frag3.data _ ?_ (noStarts_of_fragSafe h3 _)
  refine @NoStarts.append pat _ vT.data _ ?_ (noStarts_of_head_nomem hph hvT)
  refine @NoStarts.append pat _ frag2.data _ ?_ (noStarts_of_fragSafe h2 _)
  refine @NoStarts.append pat _ vB.data _ ?_ (noStarts_of_head_nomem hph hvB)
  refine @NoStarts.append pat _ frag1.data _ ?_ (noStarts_of_fragSafe h1 _)
  exact @NoStarts.append pat frag0.data vP.data _
    (noStarts_of_fragSafe h0 _) (noStarts_of_head_nomem hph hvP)

theorem renderBase_no_residual (vB vBN vP vT vF : String)
    (hB : dollarFree vB = true) (hBN : dollarFree vBN = true)
    (hP : dollarFree vP = true) (hT : dollarFree vT = true)
    (hF : dollarFree vF = true) :
    ∀ m ∈ [mBINARY, mBINARYNAME, mPACKAGES, mTRUNCATE, mFILES],
      occursB m (renderBase vB vBN vP vT vF).data = false := by
  have hd := renderBase_decomposition vB vBN vP vT vF hB hBN hP hT
  have hvB := dollarFree_mem hB
  have hvBN := dollarFree_mem hBN
  have hvP := dollarFree_mem hP
  have hvT := dollarFree_mem hT
  have hvF := dollarFree_mem hF
  intro m hm
  rw [hd]
  simp only [List.mem_cons, List.not_mem_nil, or_false] at hm
  rcases hm with rfl | rfl | rfl | rfl | rfl
  · exact noResidual_flat (by decide) (by decide) hvB hvBN hvP hvT hvF
      (by decide) (by decide) (by decide) (by decide) (by decide) (by decide)
  · exact noResidual_flat (by decide) (by decide) hvB hvBN hvP hvT hvF
      (by decide) (by decide) (by decide) (by decide) (by decide) (by decide)
  · exact noResidual_flat (by decide) (by decide) hvB hvBN hvP hvT hvF
      (by decide) (by decide) (by decide) (by decide) (by decide) (by decide)
  · exact noResidual_flat (by decide) (by decide) hvB hvBN hvP hvT hvF
      (by decide) (by decide) (by decide) (by decide) (by decide) (by decide)
  · exact noResidual_flat (by decide) (by decide) hvB hvBN hvP hvT hvF
      (by decide) (by decide) (by decide) (by decide) (by decide) (by decide)

/-- **C9 (amended).**  When no substituted value contains a `$`
character, each of the five placeholder tokens of the base template
(`$BINARY$`, `$BINARYNAME$`, `$PACKAGES$`, `$TRUNCATE$`, `$FILES$`) is
substituted exactly once during rendering — the template splits into six
fixed fragments around the five markers, and the rendered text is exactly
those fragments with each marker replaced by its value — and no residual
placeholder marker of this form remains anywhere in the rendered text.
(As originally stated, over every input, the claim is false: a value that
itself contains a marker survives rendering; see the counterexample.) -/
theorem C9_placeholder_substitution (vB vBN vP vT vF : String)
    (hB : dollarFree vB = true) (hBN : dollarFree vBN = true)
    (hP : dollarFree vP = true) (hT : dollarFree vT = true)
    (hF : dollarFree vF = true) :
    DOCKERFILE.data = frag0.data ++ mPACKAGES ++ frag1.data ++ mBINARY ++ frag2.data
        ++ mTRUNCATE ++ frag3.data ++ mFILES ++ frag4.data ++ mBINARYNAME ++ frag5.data
    ∧ (renderBase vB vBN vP vT vF).data =
        frag0.data ++ vP.data ++ frag1.data ++ vB.data ++ frag2.data ++ vT.data
          ++ frag3.data ++ vF.data ++ frag4.data ++ vBN.data ++ frag5.data
    ∧ ∀ m ∈ [mBINARY, mBINARYNAME, mPACKAGES, mTRUNCATE, mFILES],
        occursB m (renderBase vB vBN vP vT vF).data = false :=
  ⟨by decide, renderBase_decomposition vB vBN vP vT vF hB hBN hP hT,
    renderBase_no_residual vB vBN vP vT vF hB hBN hP hT hF⟩

/-- Counterexample to C9 as stated over every input: a package named
`$BINARY$` leaves a residual `$BINARY$` marker in the rendered
manifest (its own replacement pass has already run when the package list
is substituted). -/
theorem C9_residual_counterexample :
    occursStr "$BINARY$" ((mainDockerfile envNoFiles
      ⟨none, none, false, some ["$BINARY$"], none, "/bin/tool", none⟩).getD "") = true := by
  decide

/-- Witness for the amended C9 at the concrete clean values of the
`/bin/tool` scenario. -/
theorem C9_placeholder_substitution_witness :
    DOCKERFILE.data = frag0.data ++ mPACKAGES ++ frag1.data ++ mBINARY ++ frag2.data
        ++ mTRUNCATE ++ frag3.data ++ mFILES ++ frag4.data ++ mBINARYNAME ++ frag5.data
    ∧ (renderBase "/bin/tool" "tool" "" "" "").data =
        frag0.data ++ ("" : String).data ++ frag1.data ++ ("/bin/tool" : String).data
          ++ frag2.data ++ ("" : String).data ++ frag3.data ++ ("" : String).data
          ++ frag4.data ++ ("tool" : String).data ++ frag5.data
    ∧ ∀ m ∈ [mBINARY, mBINARYNAME, mPACKAGES, mTRUNCATE, mFILES],
        occursB m (renderBase "/bin/tool" "tool" "" "" "").data = false :=
  C9_placeholder_substitution "/bin/tool" "tool" "" "" ""
    (by decide) (by decide) (by decide) (by decide) (by decide)

end BinonlySnapshot
